import Mathlib

/-!
Shallow embedding of `jaq-core/src/parse.rs`: the filter-expression compiler
of the jaq JSON-query language.  The external grammar engine (pest) is out of
scope; its output is modelled as a tree of labelled nodes (`Node`).  The
precedence-climbing driver (`PrecClimber::climb`) and the AST types declared
in the sibling modules `filter.rs`, `path.rs`, `ops.rs`, `functions.rs`,
`val.rs` are not under `src/`; where needed they are modelled from the spec
(each such definition carries a `Modelled from the spec:` doc comment).
Rust panics (`unwrap`, `assert!`, `todo!`, `unreachable!`) are modelled as
`Except.error (RtError.panic msg)`; recoverable `Result`/`Option` values keep
their `Except Unit` / `Option` shape.
-/

namespace Jaq

/-- Modelled from the spec: the concrete-syntax rule labels produced by the
external grammar engine (`Rule` is generated by pest from `grammar.pest`,
which is not under `src/`); the constructors are the rule names that
`parse.rs` matches on (`at` and `from` are keywords in Lean, hence the
trailing underscores), plus the auxiliary segment/qualifier labels the tree needs. -/
inductive Rule where
  | main | expr | atom | array | object | obj_pair | ite | function | args
  | path | path_segment | path_index | path_range | dot | dot_id | question
  | identifier | string | inner_str | number | null | boole
  | at_ | from_ | until_ | from_until
  | pipe | comma | assign | update | update_with
  | or | and | eq | ne | gt | ge | lt | le | add | sub | mul | div | rem
  deriving DecidableEq, Repr

/-- Modelled from the spec: a node of the concrete parse tree handed over by
the external grammar engine (pest `Pair`): a rule label, the matched source
text, and the ordered child nodes. -/
inductive Node where
  | mk : Rule → String → List Node → Node

/-- `Pair::as_rule`. -/
def Node.asRule : Node → Rule
  | .mk r _ _ => r

/-- `Pair::as_str`. -/
def Node.asStr : Node → String
  | .mk _ s _ => s

/-- `Pair::into_inner`: the child nodes. -/
def Node.intoInner : Node → List Node
  | .mk _ _ c => c

/-- `ops::LogicOp` (declared in `ops.rs`, variants as matched in `parse.rs`). -/
inductive LogicOp where
  | Or | And | Eq | Ne | Gt | Ge | Lt | Le
  deriving DecidableEq, Repr

/-- `ops::MathOp` (declared in `ops.rs`, variants as matched in `parse.rs`). -/
inductive MathOp where
  | Add | Sub | Mul | Div | Rem
  deriving DecidableEq, Repr

/-- Modelled from the spec: `val::Atom`, the scalar literal type (`val.rs` is
not under `src/`); the numeric model is simplified to integers, which covers
every literal the compiler claims exercise (§4.4 leaves the numeric model to
the language norms). -/
inductive Atom where
  | Null
  | Bool (b : Bool)
  | Num (n : Int)
  | Str (s : String)
  deriving DecidableEq, Repr

mutual

/-- `filter::Filter`: the AST root sum type, `New` for pure-value filters and
`Ref` for reference/control filters. -/
inductive Filter where
  | New : NewFilter → Filter
  | Ref : Ref → Filter

/-- `filter::NewFilter`: pure-value filters. -/
inductive NewFilter where
  | Atom : Atom → NewFilter
  | Array : Filter → NewFilter
  | Object : List (Filter × Filter) → NewFilter
  | Logic : Filter → LogicOp → Filter → NewFilter
  | Math : Filter → MathOp → Filter → NewFilter
  | Function : NewFunc → NewFilter

/-- `functions::NewFunc`: the pure named built-ins (declared in
`functions.rs`, variants as constructed in `parse.rs`). -/
inductive NewFunc where
  | Any | All | Not | Length | Type' | Add
  | Map : Filter → NewFunc

/-- `filter::Ref`: reference/control filters. -/
inductive Ref where
  | Pipe : Filter → Filter → Ref
  | Comma : Filter → Filter → Ref
  | Empty : Ref
  | IfThenElse : Filter → Filter → Filter → Ref
  | Assign : Path → Filter → Ref
  | Update : Path → Filter → Ref
  | First : Filter → Ref
  | Last : Filter → Ref
  | Recurse : Filter → Ref
  | Fold : Filter → Filter → Filter → Ref
  | Limit : Filter → Filter → Ref
  | Path : Path → Ref

/-- `path::PathElem<Filter>`: one structured path element. -/
inductive PathElem where
  | Index : Filter → PathElem
  | Range : Option Filter → Option Filter → PathElem

/-- `path::Path`: an ordered sequence of path elements. -/
inductive Path where
  | mk : List PathElem → Path

end

/-- The element list of a path. -/
def Path.elems : Path → List PathElem
  | .mk es => es

/-- Modelled from the spec: `impl From<Atom> for Filter` (filter module, not
under `src/`): a literal atom becomes the pure literal filter. -/
def atomIntoFilter (a : Atom) : Filter :=
  .New (.Atom a)

/-- Modelled from the spec: `Ref::identity()` (filter module, not under
`src/`): the pass-value-through-unchanged filter, i.e. the empty path `.`
(the same filter the compiler builds for the bare-dot path syntax). -/
def Ref.identity : Ref :=
  .Path (.mk [])

/-- Modelled from the spec: `Ref::select(f)` (filter module, not under
`src/`): keeps the current value iff `f` evaluates truthy, desugared at build
time to `if f then . else empty`. -/
def Ref.select (f : Filter) : Ref :=
  .IfThenElse f (.Ref Ref.identity) (.Ref .Empty)

/-- Associativity tags of the precedence climber (pest `Assoc`). -/
inductive Assoc where
  | Left | Right
  deriving DecidableEq, Repr

/-- The `PREC_CLIMBER` operator table (parse.rs lines 22-40), embedded as the
rule-to-(precedence, associativity) map that `PrecClimber::new` builds from
the operator list: the first group binds loosest (precedence 1), `|`-joined
operators share a tier. -/
def precTable : Rule → Option (Nat × Assoc)
  | .pipe => some (1, .Left)
  | .comma => some (2, .Left)
  | .assign => some (3, .Right)
  | .update => some (3, .Right)
  | .update_with => some (3, .Right)
  | .or => some (4, .Left)
  | .and => some (5, .Left)
  | .eq => some (6, .Left)
  | .ne => some (6, .Left)
  | .gt => some (7, .Left)
  | .ge => some (7, .Left)
  | .lt => some (7, .Left)
  | .le => some (7, .Left)
  | .add => some (8, .Left)
  | .sub => some (8, .Left)
  | .mul => some (9, .Left)
  | .div => some (9, .Left)
  | .rem => some (10, .Left)
  | _ => none

/-- Runtime failure of the embedded compiler: `panic` models a Rust panic
(`unwrap`, `assert!`, `todo!`, `unreachable!`); `outOfFuel` is an artefact of
the fuel-indexed embedding of the mutual recursion and never occurs at the
fuel bounds used below. -/
inductive RtError where
  | panic : String → RtError
  | outOfFuel
  deriving DecidableEq, Repr

/-- Message of the panic raised by `Option::unwrap` on `None`. -/
def unwrapNoneMsg : String := "called Option::unwrap() on a None value"

/-- Message of the panic raised by `Result::unwrap` on `Err`. -/
def resultUnwrapMsg : String := "called Result::unwrap() on an Err value"

/-- Message of the panic raised by a failed `assert!` / `assert_eq!`. -/
def assertMsg : String := "assertion failed"

/-- Message of the panic raised by `todo!`. -/
def notImplementedMsg : String := "not yet implemented"

/-- Message of the panic raised by `unreachable!`. -/
def unreachableMsg : String := "internal error: entered unreachable code"

/-- `Option::unwrap`: panics on `None`. -/
def optUnwrap : Option α → Except RtError α
  | some a => .ok a
  | none => .error (.panic unwrapNoneMsg)

/-- `Result::unwrap` on a `Result<_, ()>`: panics on `Err`. -/
def resUnwrap : Except Unit α → Except RtError α
  | .ok a => .ok a
  | .error _ => .error (.panic resultUnwrapMsg)

/-- `impl TryFrom<Rule> for LogicOp` (parse.rs lines 204-219). -/
def LogicOp.tryFromRule : Rule → Except Unit LogicOp
  | .or => .ok .Or
  | .and => .ok .And
  | .eq => .ok .Eq
  | .ne => .ok .Ne
  | .gt => .ok .Gt
  | .ge => .ok .Ge
  | .lt => .ok .Lt
  | .le => .ok .Le
  | _ => .error ()

/-- `impl TryFrom<Rule> for MathOp` (parse.rs lines 221-233). -/
def MathOp.tryFromRule : Rule → Except Unit MathOp
  | .add => .ok .Add
  | .sub => .ok .Sub
  | .mul => .ok .Mul
  | .div => .ok .Div
  | .rem => .ok .Rem
  | _ => .error ()

/-- `impl TryFrom<Filter> for Path` (parse.rs lines 78-87): succeeds exactly
on the `Ref::Path` variant. -/
def Path.tryFromFilter : Filter → Except Unit Path
  | .Ref (.Path p) => .ok p
  | _ => .error ()

/-- Modelled from the spec: decimal digit value of a character (part of the
literal decoder; numeric text decoding is delegated to external code in the
original and is out of the spec's scope beyond producing a numeric value). -/
def digitVal? (c : Char) : Option Nat :=
  if c = '0' then some 0 else if c = '1' then some 1
  else if c = '2' then some 2 else if c = '3' then some 3
  else if c = '4' then some 4 else if c = '5' then some 5
  else if c = '6' then some 6 else if c = '7' then some 7
  else if c = '8' then some 8 else if c = '9' then some 9 else none

/-- Modelled from the spec: accumulate a decimal digit sequence. -/
def digitsAux (acc : Nat) : List Char → Option Nat
  | [] => some acc
  | c :: cs =>
    match digitVal? c with
    | none => none
    | some d => digitsAux (10 * acc + d) cs

/-- Modelled from the spec: the numeric-literal decoder over the integer
numeric model (`parse::<serde_json::Number>` followed by the fallible
conversion into the language's numeric atom). -/
def parseNum : String → Option Int :=
  fun s =>
    match s.data with
    | [] => none
    | '-' :: cs =>
      match cs with
      | [] => none
      | _ => (digitsAux 0 cs).map (fun n => -(n : Int))
    | cs => (digitsAux 0 cs).map (fun n => (n : Int))

/-- `impl From<Pair> for Atom` (parse.rs lines 146-157).  The numeric branch
follows the spec's literal-decoder contract over the integer numeric model. -/
def Atom.fromPair (pair : Node) : Except RtError Atom :=
  match pair.asRule with
  | .null => .ok .Null
  | .boole =>
    match pair.asStr with
    | "true" => .ok (.Bool true)
    | "false" => .ok (.Bool false)
    | _ => .error (.panic resultUnwrapMsg)
  | .number =>
    match parseNum pair.asStr with
    | some n => .ok (.Num n)
    | none => .error (.panic resultUnwrapMsg)
  | .string =>
    match pair.intoInner with
    | [] => .error (.panic unwrapNoneMsg)
    | inner1 :: _ => .ok (.Str inner1.asStr)
  | _ => .error (.panic unreachableMsg)

/-- `PathElem::from_index` (parse.rs lines 175-181): the identifier text of a
head together with the optional-presence marker flag. -/
def fromIndex (pair : Node) : Except RtError (String × Bool) :=
  match pair.intoInner with
  | [] => .error (.panic unwrapNoneMsg)
  | first :: rest =>
    match first.intoInner with
    | [] => .error (.panic unwrapNoneMsg)
    | inner1 :: _ =>
      if rest.length ≤ 1 then .ok (inner1.asStr, !rest.isEmpty)
      else .error (.panic assertMsg)

/-- `impl TryFrom<(&str, [Box<Filter>; 0])> for Filter` (parse.rs lines
235-249): nullary function resolution (the `Result<_, ()>` is mirrored as
`Option`, matching how call sites consume it via `.ok()`). -/
def tryFrom0 (name : String) : Option Filter :=
  match name with
  | "empty" => some (.Ref .Empty)
  | "any" => some (.New (.Function .Any))
  | "all" => some (.New (.Function .All))
  | "not" => some (.New (.Function .Not))
  | "length" => some (.New (.Function .Length))
  | "type" => some (.New (.Function .Type'))
  | "add" => some (.New (.Function .Add))
  | _ => none

/-- `impl TryFrom<(&str, [Box<Filter>; 1])> for Filter` (parse.rs lines
251-263): unary function resolution. -/
def tryFrom1 (name : String) (arg1 : Filter) : Option Filter :=
  match name with
  | "first" => some (.Ref (.First arg1))
  | "last" => some (.Ref (.Last arg1))
  | "map" => some (.New (.Function (.Map arg1)))
  | "select" => some (.Ref (Ref.select arg1))
  | "recurse" => some (.Ref (.Recurse arg1))
  | _ => none

/-- `impl TryFrom<(&str, [Box<Filter>; 2])> for Filter` (parse.rs lines
265-273): binary function resolution. -/
def tryFrom2 (name : String) (arg1 arg2 : Filter) : Option Filter :=
  match name with
  | "limit" => some (.Ref (.Limit arg1 arg2))
  | _ => none

/-- `Filter::try_from(name, args)` (parse.rs lines 275-307) over the realised
argument filters: arity dispatch to the nullary/unary/binary tables, `fold`
at arity 3, `None` at arity 4 or more. -/
def tryFromArity (name : String) : List Filter → Option Filter
  | [] => tryFrom0 name
  | [arg1] => tryFrom1 name arg1
  | [arg1, arg2] => tryFrom2 name arg1 arg2
  | [arg1, arg2, arg3] =>
    match name with
    | "fold" => some (.Ref (.Fold arg1 arg2 arg3))
    | _ => none
  | _ => none

/-- The reduction closure passed to `PREC_CLIMBER.climb` (parse.rs lines
47-72): assignment-tier operators convert their left operand to a `Path` via
`try_into().unwrap()` (a panic when the operand is not a path), `update_with`
desugars to `Update(path, Math(identity, op, rhs))`, pipe/comma sequence, and
every other table operator maps through the logic/arithmetic tag tables. -/
def infixFn (op : Node) (lhs rhs : Filter) : Except RtError Filter :=
  match op.asRule with
  | .assign =>
    match resUnwrap (Path.tryFromFilter lhs) with
    | .error e => .error e
    | .ok p => .ok (.Ref (.Assign p rhs))
  | .update =>
    match resUnwrap (Path.tryFromFilter lhs) with
    | .error e => .error e
    | .ok p => .ok (.Ref (.Update p rhs))
  | .update_with =>
    match optUnwrap op.intoInner.head? with
    | .error e => .error e
    | .ok opInner =>
      match resUnwrap (MathOp.tryFromRule opInner.asRule) with
      | .error e => .error e
      | .ok mop =>
        let f := Filter.New (.Math (.Ref Ref.identity) mop rhs)
        match resUnwrap (Path.tryFromFilter lhs) with
        | .error e => .error e
        | .ok p => .ok (.Ref (.Update p f))
  | .pipe => .ok (.Ref (.Pipe lhs rhs))
  | .comma => .ok (.Ref (.Comma lhs rhs))
  | r =>
    match LogicOp.tryFromRule r with
    | .ok lop => .ok (.New (.Logic lhs lop rhs))
    | .error _ =>
      match MathOp.tryFromRule r with
      | .ok mop => .ok (.New (.Math lhs mop rhs))
      | .error _ => .error (.panic unreachableMsg)

mutual

/-- `impl From<Pairs> for Filter` (parse.rs lines 42-76): precedence-climb a
flat operand/operator token sequence (pest `PrecClimber::climb`: take the
first primary, then reduce from minimum precedence 0). -/
def fromPairs (fuel : Nat) (pairs : List Node) : Except RtError Filter :=
  match fuel with
  | 0 => .error .outOfFuel
  | fuel + 1 =>
    match pairs with
    | [] => .error (.panic unwrapNoneMsg)
    | p :: rest =>
      match fromPair fuel p with
      | .error e => .error e
      | .ok lhs =>
        match climbRec fuel lhs 0 rest with
        | .error e => .error e
        | .ok (r, _) => .ok r

termination_by structural fuel

/-- Modelled from the spec: pest's `PrecClimber::climb_rec` outer loop (the
precedence-climbing engine is external library code); while the next token is
a table operator of precedence at least `minPrec`, take the following primary
as right operand, extend it through `climbHigher`, and reduce with the infix
closure. -/
def climbRec (fuel : Nat) (lhs : Filter) (minPrec : Nat) (toks : List Node) :
    Except RtError (Filter × List Node) :=
  match fuel with
  | 0 => .error .outOfFuel
  | fuel + 1 =>
    match toks with
    | [] => .ok (lhs, toks)
    | op :: rest =>
      match precTable op.asRule with
      | none => .ok (lhs, op :: rest)
      | some (prec, _) =>
        if minPrec ≤ prec then
          match rest with
          | [] => .error (.panic unwrapNoneMsg)
          | rhsTok :: rest2 =>
            match fromPair fuel rhsTok with
            | .error e => .error e
            | .ok rhs =>
              match climbHigher fuel rhs prec rest2 with
              | .error e => .error e
              | .ok (rhs2, rest3) =>
                match infixFn op lhs rhs2 with
                | .error e => .error e
                | .ok lhs2 => climbRec fuel lhs2 minPrec rest3
        else .ok (lhs, op :: rest)

termination_by structural fuel

/-- Modelled from the spec: pest's `PrecClimber::climb_rec` inner loop; while
the next token is a table operator that binds tighter (or equally for a
right-associative tier), let the right operand absorb it recursively. -/
def climbHigher (fuel : Nat) (rhs : Filter) (prec : Nat) (toks : List Node) :
    Except RtError (Filter × List Node) :=
  match fuel with
  | 0 => .error .outOfFuel
  | fuel + 1 =>
    match toks with
    | [] => .ok (rhs, toks)
    | op2 :: rest =>
      match precTable op2.asRule with
      | none => .ok (rhs, op2 :: rest)
      | some (newPrec, assoc) =>
        if prec < newPrec ∨ (assoc = Assoc.Right ∧ newPrec = prec) then
          match climbRec fuel rhs newPrec (op2 :: rest) with
          | .error e => .error e
          | .ok (rhs2, toks2) => climbHigher fuel rhs2 prec toks2
        else .ok (rhs, op2 :: rest)

termination_by structural fuel

/-- `impl From<Pair> for Filter` (parse.rs lines 89-144): the AST builder,
dispatching on the node's rule. -/
def fromPair (fuel : Nat) (pair : Node) : Except RtError Filter :=
  match fuel with
  | 0 => .error .outOfFuel
  | fuel + 1 =>
    match pair.asRule with
    | .expr => fromPairs fuel pair.intoInner
    | .atom =>
      match pair.intoInner with
      | [] => .error (.panic unwrapNoneMsg)
      | a :: _ =>
        match Atom.fromPair a with
        | .error e => .error e
        | .ok at1 => .ok (.New (.Atom at1))
    | .array =>
      match pair.intoInner with
      | [] => .ok (.New (.Array (.Ref .Empty)))
      | _ =>
        match fromPairs fuel pair.intoInner with
        | .error e => .error e
        | .ok c => .ok (.New (.Array c))
    | .object =>
      match mapObjEntries fuel pair.intoInner with
      | .error e => .error e
      | .ok contents => .ok (.New (.Object contents))
    | .ite =>
      match pair.intoInner with
      | c :: t :: f :: rest =>
        match fromPair fuel c with
        | .error e => .error e
        | .ok cf =>
          match fromPair fuel t with
          | .error e => .error e
          | .ok tf =>
            match fromPair fuel f with
            | .error e => .error e
            | .ok ff =>
              match rest with
              | [] => .ok (.Ref (.IfThenElse cf tf ff))
              | x :: _ =>
                match fromPair fuel x with
                | .error e => .error e
                | .ok _ => .error (.panic assertMsg)
      | other =>
        match mapFromPair fuel other with
        | .error e => .error e
        | .ok _ => .error (.panic unwrapNoneMsg)
    | .function =>
      match pair.intoInner with
      | [] => .error (.panic unwrapNoneMsg)
      | nameNode :: rest =>
        if rest.length ≤ 1 then
          match tryFromCall fuel nameNode.asStr
              (match rest.head? with
               | none => []
               | some argsNode => argsNode.intoInner) with
          | .error e => .error e
          | .ok (some f) => .ok f
          | .ok none => .error (.panic unwrapNoneMsg)
        else .error (.panic assertMsg)
    | .path =>
      match mapFromPath fuel pair.intoInner with
      | .error e => .error e
      | .ok elemss => .ok (.Ref (.Path (.mk elemss.flatten)))
    | _ => .error (.panic unreachableMsg)

termination_by structural fuel

/-- One key/value entry of an object literal (the closure of the
`Rule::object` arm, parse.rs lines 104-121): identifier and string keys
become string-literal atoms, parenthesised expressions computed keys; a
missing value is `todo!`, a third child fails the `assert_eq!`. -/
def fromObjEntry (fuel : Nat) (kv : Node) : Except RtError (Filter × Filter) :=
  match fuel with
  | 0 => .error .outOfFuel
  | fuel + 1 =>
    match kv.intoInner with
    | [] => .error (.panic unwrapNoneMsg)
    | key :: rest =>
      match
        (match key.asRule with
         | .identifier => .ok (atomIntoFilter (.Str key.asStr))
         | .string =>
           match Atom.fromPair key with
           | .error e => .error e
           | .ok a => .ok (atomIntoFilter a)
         | .expr => fromPair fuel key
         | _ => .error (.panic unreachableMsg) : Except RtError Filter) with
      | .error e => .error e
      | .ok kf =>
        match rest with
        | [] => .error (.panic notImplementedMsg)
        | v :: rest2 =>
          match fromPair fuel v with
          | .error e => .error e
          | .ok vf =>
            if rest2.isEmpty then .ok (kf, vf)
            else .error (.panic assertMsg)

termination_by structural fuel

/-- `Filter::try_from(name, args)` driving the lazy argument iterator
(parse.rs lines 131-138 together with 275-307): the resolver pulls and
converts at most four argument nodes, then dispatches on the realised arity;
four or more arguments resolve to `None`. -/
def tryFromCall (fuel : Nat) (name : String) (args : List Node) :
    Except RtError (Option Filter) :=
  match fuel with
  | 0 => .error .outOfFuel
  | fuel + 1 =>
    match mapFromPair fuel (args.take 4) with
    | .error e => .error e
    | .ok pulled =>
      if 4 ≤ args.length then .ok none
      else .ok (tryFromArity name pulled)

termination_by structural fuel

/-- `PathElem::from_path` (parse.rs lines 159-173): the head contributes one
string-literal `Index` when it is a `path_index` (its presence-marker flag is
read but dropped) and nothing when it is a bare dot; every following
qualifier contributes one element via `fromRange`. -/
def fromPath (fuel : Nat) (pair : Node) : Except RtError (List PathElem) :=
  match fuel with
  | 0 => .error .outOfFuel
  | fuel + 1 =>
    match pair.intoInner with
    | [] => .error (.panic unwrapNoneMsg)
    | index :: rest =>
      match index.asRule with
      | .path_index =>
        match fromIndex index with
        | .error e => .error e
        | .ok iq =>
          match mapFromRange fuel rest with
          | .error e => .error e
          | .ok ranges =>
            .ok (.Index (atomIntoFilter (.Str iq.1)) :: ranges)
      | _ =>
        match mapFromRange fuel rest with
        | .error e => .error e
        | .ok ranges => .ok ranges

termination_by structural fuel

/-- `PathElem::from_range` (parse.rs lines 183-201): empty brackets are the
full range, `at` a computed index, `from`/`until`/`from_until` the three
bounded slice forms. -/
def fromRange (fuel : Nat) (pair : Node) : Except RtError PathElem :=
  match fuel with
  | 0 => .error .outOfFuel
  | fuel + 1 =>
    match pair.intoInner with
    | [] => .ok (.Range none none)
    | range :: _ =>
      match range.asRule with
      | .at_ =>
        match fromPairs fuel range.intoInner with
        | .error e => .error e
        | .ok f => .ok (.Index f)
      | .from_ =>
        match fromPairs fuel range.intoInner with
        | .error e => .error e
        | .ok f => .ok (.Range (some f) none)
      | .until_ =>
        match fromPairs fuel range.intoInner with
        | .error e => .error e
        | .ok f => .ok (.Range none (some f))
      | .from_until =>
        match range.intoInner with
        | [a, b] =>
          match fromPair fuel a with
          | .error e => .error e
          | .ok fa =>
            match fromPair fuel b with
            | .error e => .error e
            | .ok fb => .ok (.Range (some fa) (some fb))
        | [] => .error (.panic unwrapNoneMsg)
        | [a] =>
          match fromPair fuel a with
          | .error e => .error e
          | .ok _ => .error (.panic unwrapNoneMsg)
        | a :: b :: c :: _ =>
          match fromPair fuel a with
          | .error e => .error e
          | .ok _ =>
            match fromPair fuel b with
            | .error e => .error e
            | .ok _ =>
              match fromPair fuel c with
              | .error e => .error e
              | .ok _ => .error (.panic assertMsg)
      | _ => .error (.panic unreachableMsg)

termination_by structural fuel

/-- Fuel-indexed error-propagating map of the AST builder over a node list
(the eager equivalent of the lazy `map(Self::from)` iterator chains in
`parse.rs`). -/
def mapFromPair (fuel : Nat) (xs : List Node) : Except RtError (List Filter) :=
  match fuel with
  | 0 => .error .outOfFuel
  | fuel + 1 =>
    match xs with
    | [] => .ok []
    | x :: xs =>
      match fromPair fuel x with
      | .error e => .error e
      | .ok y =>
        match mapFromPair fuel xs with
        | .error e => .error e
        | .ok ys => .ok (y :: ys)

termination_by structural fuel

/-- Fuel-indexed error-propagating map of `fromPath` over the segments of a
path (the eager equivalent of `flat_map(PathElem::from_path)`). -/
def mapFromPath (fuel : Nat) (xs : List Node) :
    Except RtError (List (List PathElem)) :=
  match fuel with
  | 0 => .error .outOfFuel
  | fuel + 1 =>
    match xs with
    | [] => .ok []
    | x :: xs =>
      match fromPath fuel x with
      | .error e => .error e
      | .ok y =>
        match mapFromPath fuel xs with
        | .error e => .error e
        | .ok ys => .ok (y :: ys)

termination_by structural fuel

/-- Fuel-indexed error-propagating map of `fromRange` over the qualifiers of
a path segment (the eager equivalent of `iter.map(PathElem::from_range)`). -/
def mapFromRange (fuel : Nat) (xs : List Node) :
    Except RtError (List PathElem) :=
  match fuel with
  | 0 => .error .outOfFuel
  | fuel + 1 =>
    match xs with
    | [] => .ok []
    | x :: xs =>
      match fromRange fuel x with
      | .error e => .error e
      | .ok y =>
        match mapFromRange fuel xs with
        | .error e => .error e
        | .ok ys => .ok (y :: ys)

termination_by structural fuel

/-- Fuel-indexed error-propagating map of the object-entry builder over the
key/value children of an object literal. -/
def mapObjEntries (fuel : Nat) (xs : List Node) :
    Except RtError (List (Filter × Filter)) :=
  match fuel with
  | 0 => .error .outOfFuel
  | fuel + 1 =>
    match xs with
    | [] => .ok []
    | x :: xs =>
      match fromObjEntry fuel x with
      | .error e => .error e
      | .ok y =>
        match mapObjEntries fuel xs with
        | .error e => .error e
        | .ok ys => .ok (y :: ys)


termination_by structural fuel

end

/-! ### Concrete-syntax fixtures used by the theorems -/

/-- A numeric atom token: `atom` node wrapping a `number` leaf. -/
def atomN (s : String) : Node :=
  .mk .atom s [.mk .number s []]

/-- A bare operator token. -/
def opNode (r : Rule) (s : String) : Node :=
  .mk r s []

/-- An identifier leaf. -/
def identNode (s : String) : Node :=
  .mk .identifier s []

/-- A path segment whose head is the identifier index `.name` (no presence
marker, no qualifiers). -/
def segIdent (name : String) : Node :=
  .mk .path_segment name [.mk .path_index name [.mk .dot_id name [identNode name]]]

/-- The path `.name` as a single-segment `path` node. -/
def pathVar (name : String) : Node :=
  .mk .path name [segIdent name]

/-- The bare-dot path `.` (one segment, head only, no identifier index). -/
def dotPath : Node :=
  .mk .path "." [.mk .path_segment "." [.mk .dot "." []]]

/-- The pure numeric literal filter. -/
def numF (n : Int) : Filter :=
  .New (.Atom (.Num n))

/-- The pure string literal filter. -/
def strF (s : String) : Filter :=
  .New (.Atom (.Str s))

/-! ### Claims -/

/-- C1: the compiler's operator table fixes the precedence order
pipe < comma < assign/update/update_with < or < and < eq,ne < gt,ge,lt,le <
add,sub < mul,div < rem, with the assign tier right-associative and every
other tier left-associative; climbing the parenthesis-free token sequences
accordingly, `1 + 2 * 3` builds `Math(1, Add, Math(2, Mul, 3))` and
`1 | 2, 3` builds `Pipe(1, Comma(2, 3))`. -/
theorem precedence_table_C1 :
    (precTable .pipe = some (1, .Left))
  ∧ (precTable .comma = some (2, .Left))
  ∧ (precTable .assign = some (3, .Right))
  ∧ (precTable .update = some (3, .Right))
  ∧ (precTable .update_with = some (3, .Right))
  ∧ (precTable .or = some (4, .Left))
  ∧ (precTable .and = some (5, .Left))
  ∧ (precTable .eq = some (6, .Left))
  ∧ (precTable .ne = some (6, .Left))
  ∧ (precTable .gt = some (7, .Left))
  ∧ (precTable .ge = some (7, .Left))
  ∧ (precTable .lt = some (7, .Left))
  ∧ (precTable .le = some (7, .Left))
  ∧ (precTable .add = some (8, .Left))
  ∧ (precTable .sub = some (8, .Left))
  ∧ (precTable .mul = some (9, .Left))
  ∧ (precTable .div = some (9, .Left))
  ∧ (precTable .rem = some (10, .Left))
  ∧ (fromPairs 20 [atomN "1", opNode .add "+", atomN "2", opNode .mul "*", atomN "3"] =
      .ok (.New (.Math (numF 1) .Add (.New (.Math (numF 2) .Mul (numF 3))))))
  ∧ (fromPairs 20 [atomN "1", opNode .pipe "|", atomN "2", opNode .comma "," , atomN "3"] =
      .ok (.Ref (.Pipe (numF 1) (.Ref (.Comma (numF 2) (numF 3)))))) :=
  ⟨rfl, rfl, rfl, rfl, rfl, rfl, rfl, rfl, rfl, rfl, rfl, rfl, rfl, rfl, rfl,
   rfl, rfl, rfl, rfl, rfl⟩

/-- C2 (code bug): on an assignment-tier operator whose left operand is not a
`Ref::Path` filter, the conversion to `Path` fails recoverably with the
information-free error `()`, but the compiler then `unwrap`s it and panics —
shown for `1 = 2`, `1 |= 2` and `1 += 2` — instead of returning the
recoverable value-level error the spec requires. -/
theorem assign_nonpath_panics_C2 :
    (Path.tryFromFilter (numF 1) = .error ())
  ∧ (fromPairs 20 [atomN "1", opNode .assign "=", atomN "2"] =
      .error (.panic resultUnwrapMsg))
  ∧ (fromPairs 20 [atomN "1", opNode .update "|=", atomN "2"] =
      .error (.panic resultUnwrapMsg))
  ∧ (fromPairs 20 [atomN "1", Node.mk .update_with "+=" [opNode .add "+"], atomN "2"] =
      .error (.panic resultUnwrapMsg)) :=
  ⟨rfl, rfl, rfl, rfl⟩

/-- C3: the compound update `.x += 1` desugars to
`Update(path .x, Math(identity, Add, 1))`, the very AST that `.x |= . + 1`
builds, so the two parses are structurally equal. -/
theorem compound_update_desugar_C3 :
    (fromPairs 20 [pathVar "x", Node.mk .update_with "+=" [opNode .add "+"], atomN "1"] =
      fromPairs 20 [pathVar "x", opNode .update "|=", dotPath, opNode .add "+", atomN "1"])
  ∧ (fromPairs 20 [pathVar "x", Node.mk .update_with "+=" [opNode .add "+"], atomN "1"] =
      .ok (.Ref (.Update (.mk [.Index (strF "x")])
        (.New (.Math (.Ref Ref.identity) .Add (numF 1)))))) :=
  ⟨rfl, rfl⟩

/-- C5 (code bug): a function call whose name/arity pair is absent from the
resolution table — `foo` at arity 0 and `fold` at arity 4 — makes the
resolver return `None` (carrying neither the name nor the argument count),
and the compiler `unwrap`s it and panics instead of reporting a recoverable
parse error. -/
theorem unknown_function_panics_C5 :
    (tryFromArity "foo" [] = none)
  ∧ (∀ a b c d : Filter, tryFromArity "fold" [a, b, c, d] = none)
  ∧ (fromPair 20 (.mk .function "foo" [identNode "foo"]) =
      .error (.panic unwrapNoneMsg))
  ∧ (fromPair 20 (.mk .function "fold"
        [identNode "fold",
         .mk .args "" [atomN "1", atomN "2", atomN "3", atomN "4"]]) =
      .error (.panic unwrapNoneMsg)) :=
  ⟨rfl, fun _ _ _ _ => rfl, rfl, rfl⟩

/-- C7 counterexample: `.a = .b = .c` does not fail to compile — it climbs
right-associatively to `Assign(.a, Assign(.b, .c))`, because each `=` has the
path `.a` respectively `.b` as its left operand and only left operands are
converted to paths. -/
theorem assign_chain_C7_cex :
    (fromPairs 20 [pathVar "a", opNode .assign "=", pathVar "b", opNode .assign "=", pathVar "c"] =
      .ok (.Ref (.Assign (.mk [.Index (strF "a")])
        (.Ref (.Assign (.mk [.Index (strF "b")])
          (.Ref (.Path (.mk [.Index (strF "c")]))))))))
  ∧ (fromPairs 20 [pathVar "a", opNode .assign "=", pathVar "b", opNode .assign "=", pathVar "c"]).isOk = true :=
  ⟨rfl, rfl⟩

/-- C7 (amended): because the assign tier is right-associative,
`.a |= .b |= .c` parses as nested updates on `.a` wrapping the update
`.b |= .c`, and `.a = .b = .c` likewise compiles, to
`Assign(.a, Assign(.b, .c))`, since each `=` has a path as its left operand. -/
theorem assign_right_assoc_C7 :
    (fromPairs 20 [pathVar "a", opNode .update "|=", pathVar "b", opNode .update "|=", pathVar "c"] =
      .ok (.Ref (.Update (.mk [.Index (strF "a")])
        (.Ref (.Update (.mk [.Index (strF "b")])
          (.Ref (.Path (.mk [.Index (strF "c")]))))))))
  ∧ (fromPairs 20 [pathVar "a", opNode .assign "=", pathVar "b", opNode .assign "=", pathVar "c"] =
      .ok (.Ref (.Assign (.mk [.Index (strF "a")])
        (.Ref (.Assign (.mk [.Index (strF "b")])
          (.Ref (.Path (.mk [.Index (strF "c")])))))))) :=
  ⟨rfl, rfl⟩

/-- The path `.a.b[0]`: segments `.a` and `.b[0]`, the latter with the
bracket qualifier `[0]`. -/
def dotAB0 : Node :=
  .mk .path ".a.b[0]"
    [segIdent "a",
     .mk .path_segment ".b[0]"
       [.mk .path_index ".b" [.mk .dot_id ".b" [identNode "b"]],
        .mk .path_range "[0]" [.mk .at_ "0" [atomN "0"]]]]

/-- C4 counterexample: the filter built from the pure path syntax `.a.b[0]`
converts successfully to a `Path`, but that path consists of three `Index`
elements (`"a"`, `"b"`, `0`), not two. -/
theorem path_roundtrip_C4_cex :
    (fromPair 20 dotAB0 =
      .ok (.Ref (.Path (.mk [.Index (strF "a"), .Index (strF "b"), .Index (numF 0)]))))
  ∧ (Path.tryFromFilter
      (.Ref (.Path (.mk [.Index (strF "a"), .Index (strF "b"), .Index (numF 0)]))) =
      .ok (.mk [.Index (strF "a"), .Index (strF "b"), .Index (numF 0)]))
  ∧ (Path.mk [.Index (strF "a"), .Index (strF "b"), .Index (numF 0)]).elems.length = 3
  ∧ ¬(Path.mk [.Index (strF "a"), .Index (strF "b"), .Index (numF 0)]).elems.length = 2 :=
  ⟨rfl, rfl, rfl, by decide⟩

/-- C4 (amended): the conversion from `Filter` to `Path` succeeds exactly on
the `Ref::Path` variant (returning the contained path) and fails on every
other filter shape (e.g. the literal `1`); the filter built from the pure
path syntax `.a.b[0]` converts successfully to a `Path` of three `Index`
elements. -/
theorem path_conversion_C4 :
    (∀ p, Path.tryFromFilter (.Ref (.Path p)) = .ok p)
  ∧ (∀ f : Filter, (∀ p, f ≠ .Ref (.Path p)) → Path.tryFromFilter f = .error ())
  ∧ (Path.tryFromFilter (numF 1) = .error ())
  ∧ (fromPair 20 dotAB0 =
      .ok (.Ref (.Path (.mk [.Index (strF "a"), .Index (strF "b"), .Index (numF 0)])))) := by
  refine ⟨fun _ => rfl, ?_, rfl, rfl⟩
  intro f h
  cases f with
  | New n => rfl
  | Ref r =>
    cases r with
    | Path p => exact absurd rfl (h p)
    | _ => rfl

/-- C4 witness: the amended conversion theorem applied to the literal `1`,
which is not a `Ref::Path` filter. -/
theorem path_conversion_C4_witness :
    Path.tryFromFilter (.New (.Atom (.Num 1))) = .error () :=
  path_conversion_C4.2.1 (.New (.Atom (.Num 1))) (fun _ hp => Filter.noConfusion hp)

/-- Unfolding of the arity dispatch at a three-element argument list. -/
theorem tryFromArity_three (name : String) (a b c : Filter) :
    tryFromArity name [a, b, c] =
      match name with
      | "fold" => some (.Ref (.Fold a b c))
      | _ => none := rfl

/-- C6: the arity-dispatch resolution table maps each documented name/arity
pair to its constructor — at arity 0 `empty` and the six pure built-ins, at
arity 1 `first`/`last`/`recurse` to `Ref` variants, `map` to the
parameterised built-in and `select` to its desugared form, at arity 2 only
`limit`, at arity 3 only `fold` — and a known name at the wrong arity fails
(`limit(5)` at arity 1, `foo()` at arity 0). -/
theorem function_resolution_C6 :
    (tryFromArity "empty" [] = some (.Ref .Empty))
  ∧ (tryFromArity "any" [] = some (.New (.Function .Any)))
  ∧ (tryFromArity "all" [] = some (.New (.Function .All)))
  ∧ (tryFromArity "not" [] = some (.New (.Function .Not)))
  ∧ (tryFromArity "length" [] = some (.New (.Function .Length)))
  ∧ (tryFromArity "type" [] = some (.New (.Function .Type')))
  ∧ (tryFromArity "add" [] = some (.New (.Function .Add)))
  ∧ (∀ f, tryFromArity "first" [f] = some (.Ref (.First f)))
  ∧ (∀ f, tryFromArity "last" [f] = some (.Ref (.Last f)))
  ∧ (∀ f, tryFromArity "recurse" [f] = some (.Ref (.Recurse f)))
  ∧ (∀ f, tryFromArity "map" [f] = some (.New (.Function (.Map f))))
  ∧ (∀ f, tryFromArity "select" [f] = some (.Ref (Ref.select f)))
  ∧ (∀ a b, tryFromArity "limit" [a, b] = some (.Ref (.Limit a b)))
  ∧ (∀ name a b, name ≠ "limit" → tryFromArity name [a, b] = none)
  ∧ (∀ a b c, tryFromArity "fold" [a, b, c] = some (.Ref (.Fold a b c)))
  ∧ (∀ name a b c, name ≠ "fold" → tryFromArity name [a, b, c] = none)
  ∧ (tryFromArity "limit" [numF 5, .Ref Ref.identity] =
      some (.Ref (.Limit (numF 5) (.Ref Ref.identity))))
  ∧ (∀ f, tryFromArity "limit" [f] = none)
  ∧ (tryFromArity "foo" [] = none) := by
  refine ⟨rfl, rfl, rfl, rfl, rfl, rfl, rfl, fun _ => rfl, fun _ => rfl,
    fun _ => rfl, fun _ => rfl, fun _ => rfl, fun _ _ => rfl, ?_,
    fun _ _ _ => rfl, ?_, rfl, fun _ => rfl, rfl⟩
  · intro name a b h
    have e : tryFromArity name [a, b] = tryFrom2 name a b := rfl
    rw [e, tryFrom2.eq_def]
    split
    · exact absurd rfl h
    · rfl
  · intro name a b c h
    rw [tryFromArity_three]
    split
    · exact absurd rfl h
    · rfl

/-- C6 witness: the resolution theorem applied at concrete inputs, with both
wrong-name hypotheses discharged (`quux` is neither `limit` at arity 2 nor
`fold` at arity 3). -/
theorem function_resolution_C6_witness :
    (tryFromArity "quux" [.Ref .Empty, .Ref .Empty] = none)
  ∧ (tryFromArity "quux" [.Ref .Empty, .Ref .Empty, .Ref .Empty] = none) :=
  ⟨function_resolution_C6.2.2.2.2.2.2.2.2.2.2.2.2.2.1 "quux" (.Ref .Empty) (.Ref .Empty)
      (by decide),
   function_resolution_C6.2.2.2.2.2.2.2.2.2.2.2.2.2.2.2.1 "quux" (.Ref .Empty) (.Ref .Empty)
      (.Ref .Empty) (by decide)⟩

/-- C8: bracket qualifiers map to path elements exactly as documented: empty
brackets give `Range(None, None)`; a single bracketed expression gives
`Index(expr)`; the `from`, `until` and `from:until` slice forms give
`Range(Some, None)`, `Range(None, Some)` and `Range(Some, Some)`; concretely
`.[2:5]`, `.[2:]`, `.[:5]`, `.[:]` and `.[2]` produce the documented
elements. -/
theorem bracket_qualifiers_C8 :
    (∀ (fuel : Nat) (r : Rule) (s : String),
      fromRange (fuel + 1) (.mk r s []) = .ok (.Range none none))
  ∧ (∀ (fuel : Nat) (r : Rule) (s s2 : String) (toks : List Node) (f : Filter),
      fromPairs fuel toks = .ok f →
      fromRange (fuel + 1) (.mk r s [.mk .at_ s2 toks]) = .ok (.Index f))
  ∧ (∀ (fuel : Nat) (r : Rule) (s s2 : String) (toks : List Node) (f : Filter),
      fromPairs fuel toks = .ok f →
      fromRange (fuel + 1) (.mk r s [.mk .from_ s2 toks]) =
        .ok (.Range (some f) none))
  ∧ (∀ (fuel : Nat) (r : Rule) (s s2 : String) (toks : List Node) (f : Filter),
      fromPairs fuel toks = .ok f →
      fromRange (fuel + 1) (.mk r s [.mk .until_ s2 toks]) =
        .ok (.Range none (some f)))
  ∧ (∀ (fuel : Nat) (r : Rule) (s s2 : String) (a b : Node) (fa fb : Filter),
      fromPair fuel a = .ok fa → fromPair fuel b = .ok fb →
      fromRange (fuel + 1) (.mk r s [.mk .from_until s2 [a, b]]) =
        .ok (.Range (some fa) (some fb)))
  ∧ (fromRange 20 (.mk .path_range "[2:5]" [.mk .from_until "2:5" [atomN "2", atomN "5"]]) =
      .ok (.Range (some (numF 2)) (some (numF 5))))
  ∧ (fromRange 20 (.mk .path_range "[2:]" [.mk .from_ "2:" [atomN "2"]]) =
      .ok (.Range (some (numF 2)) none))
  ∧ (fromRange 20 (.mk .path_range "[:5]" [.mk .until_ ":5" [atomN "5"]]) =
      .ok (.Range none (some (numF 5))))
  ∧ (fromRange 20 (.mk .path_range "[:]" []) = .ok (.Range none none))
  ∧ (fromRange 20 (.mk .path_range "[2]" [.mk .at_ "2" [atomN "2"]]) =
      .ok (.Index (numF 2))) := by
  refine ⟨fun _ _ _ => rfl, ?_, ?_, ?_, ?_, rfl, rfl, rfl, rfl, rfl⟩
  · intro fuel r s s2 toks f h
    simp [fromRange, Node.intoInner, Node.asRule, h]
  · intro fuel r s s2 toks f h
    simp [fromRange, Node.intoInner, Node.asRule, h]
  · intro fuel r s s2 toks f h
    simp [fromRange, Node.intoInner, Node.asRule, h]
  · intro fuel r s s2 a b fa fb ha hb
    simp [fromRange, Node.intoInner, Node.asRule, ha, hb]

/-- C8 witness: the qualifier theorem applied at concrete inputs, each
hypothesis discharged by evaluating the inner expression `3` (and `4`). -/
theorem bracket_qualifiers_C8_witness :
    (fromRange 20 (.mk .path_range "[3]" [.mk .at_ "3" [atomN "3"]]) =
      .ok (.Index (numF 3)))
  ∧ (fromRange 20 (.mk .path_range "[3:]" [.mk .from_ "3:" [atomN "3"]]) =
      .ok (.Range (some (numF 3)) none))
  ∧ (fromRange 20 (.mk .path_range "[:3]" [.mk .until_ ":3" [atomN "3"]]) =
      .ok (.Range none (some (numF 3))))
  ∧ (fromRange 20 (.mk .path_range "[3:4]" [.mk .from_until "3:4" [atomN "3", atomN "4"]]) =
      .ok (.Range (some (numF 3)) (some (numF 4)))) :=
  ⟨bracket_qualifiers_C8.2.1 19 .path_range "[3]" "3" [atomN "3"] (numF 3) rfl,
   bracket_qualifiers_C8.2.2.1 19 .path_range "[3:]" "3:" [atomN "3"] (numF 3) rfl,
   bracket_qualifiers_C8.2.2.2.1 19 .path_range "[:3]" ":3" [atomN "3"] (numF 3) rfl,
   bracket_qualifiers_C8.2.2.2.2.1 19 .path_range "[3:4]" "3:4" (atomN "3") (atomN "4")
     (numF 3) (numF 4) rfl rfl⟩

/-- Drop the presence-marker child from a segment head that carries one: a
head with exactly two children (the dotted index and the marker) keeps only
the index; every other node is untouched (`from_index` treats any second
child as the marker, so this is exactly "marker absent"). -/
def stripHead : Node → Node
  | .mk r s [idx, _] => .mk r s [idx]
  | n => n

/-- Remove the optional presence marker from a path segment: the marker sits
on the segment's head (its first child); other nodes are untouched. -/
def stripQuestion : Node → Node
  | .mk r s (head :: rest) => .mk r s (stripHead head :: rest)
  | n => n

/-- C9: two-run noninterference of the presence marker — the path elements
emitted for a segment are identical whether or not the optional
suppress-missing marker is attached to the segment's head, at every fuel
bound and for every segment node. -/
theorem question_marker_noninterference_C9 (fuel : Nat) (n : Node) :
    fromPath fuel (stripQuestion n) = fromPath fuel n := by
  cases fuel with
  | zero => rfl
  | succ fuel =>
    cases n with
    | mk r s children =>
      cases children with
      | nil => rfl
      | cons head rest =>
        cases head with
        | mk hr hs hc =>
          match hc with
          | [] => rfl
          | [_] => rfl
          | _ :: _ :: _ :: _ => rfl
          | [a, q] =>
            cases a with
            | mk ar as1 ac =>
              cases ac with
              | nil => cases hr <;> rfl
              | cons x xs => cases hr <;> rfl

/-- C10: a segment head that is an identifier index emits exactly one
`Index` element whose inner filter is the string-literal atom of the
extracted identifier text (never a computed filter), and a bare-dot head
(any non-`path_index` head) emits no element at all, so the segment's
elements are exactly those of its bracket qualifiers. -/
theorem head_literal_index_C10 :
    (∀ (fuel : Nat) (r : Rule) (s hs : String) (hc rest : List Node)
        (name : String) (q : Bool) (ranges : List PathElem),
      fromIndex (.mk Rule.path_index hs hc) = .ok (name, q) →
      mapFromRange fuel rest = .ok ranges →
      fromPath (fuel + 1) (.mk r s (.mk Rule.path_index hs hc :: rest)) =
        .ok (.Index (strF name) :: ranges))
  ∧ (∀ (fuel : Nat) (r : Rule) (s : String) (hr : Rule) (hs : String)
        (hc rest : List Node),
      hr ≠ Rule.path_index →
      fromPath (fuel + 1) (.mk r s (.mk hr hs hc :: rest)) =
        mapFromRange fuel rest) := by
  constructor
  · intro fuel r s hs hc rest name q ranges h1 h2
    simp [fromPath, Node.intoInner, Node.asRule, h1, h2, strF, atomIntoFilter]
  · intro fuel r s hr hs hc rest h
    cases hmr : mapFromRange fuel rest with
    | error e => cases hr <;> simp_all [fromPath, Node.intoInner, Node.asRule]
    | ok ranges => cases hr <;> simp_all [fromPath, Node.intoInner, Node.asRule]

/-- C10 witness: the head theorem applied to the concrete segment `.a`
(identifier head, no qualifiers) and to a bare-dot segment. -/
theorem head_literal_index_C10_witness :
    (fromPath 20 (.mk .path_segment ".a"
        [.mk .path_index ".a" [.mk .dot_id ".a" [identNode "a"]]]) =
      .ok [.Index (strF "a")])
  ∧ (fromPath 20 (.mk .path_segment "." [.mk .dot "." []]) = mapFromRange 19 []) :=
  ⟨head_literal_index_C10.1 19 .path_segment ".a" ".a"
      [.mk .dot_id ".a" [identNode "a"]] [] "a" false [] rfl rfl,
   head_literal_index_C10.2 19 .path_segment "." .dot "." [] [] (by decide)⟩

end Jaq
